import Mathlib

/-!
Verification of the audio-to-voice generation pipeline.

The repository ships the browser UI (frontend/src/app/page.tsx and
frontend/src/app/phase2/page.tsx), shell scripts and design documents;
the Python backend (main_phase2.py: transcription service, quality
analyzer, text correction, background composer, video muxer,
orchestrator) is not among the shipped files.  UI behaviour below is
embedded directly from the TypeScript source; backend behaviour is
modelled from the specification, each such definition carrying a doc
comment that says so.
-/

namespace AudioToVoice

/-! ## Base UI (frontend/src/app/page.tsx) -/

/-- Processing status of the base page, from
`type ProcessStatus = 'idle' | 'uploading' | 'processing' | 'completed' | 'error'`. -/
inductive ProcessStatus
  | idle
  | uploading
  | processing
  | completed
  | error
deriving DecidableEq, Repr

/-- The selected audio file: the fields of the browser `File` object the
page reads (`name`, `size`). -/
structure SelectedFile where
  name : String
  size : Nat
deriving DecidableEq, Repr

/-- `interface UploadResult` of page.tsx. -/
structure UploadResult where
  file_id : String
  filename : String
  original_name : String
  size : Nat
  message : String
deriving DecidableEq, Repr

/-- `interface GenerateResult` of page.tsx. -/
structure GenerateResult where
  file_id : String
  output_file : String
  download_url : String
  transcript : String
  segments_count : Nat
  language : String
  message : String
deriving DecidableEq, Repr

/-- The React state of the base page that `handleFileSelect` touches. -/
structure HomeState where
  file : Option SelectedFile
  uploadResult : Option UploadResult
  generateResult : Option GenerateResult
  status : ProcessStatus
  error : String
deriving DecidableEq, Repr

/-- `const supportedFormats = ['.mp3', '.wav', '.m4a', '.aac', '.flac', '.ogg']`
from `handleFileSelect` in page.tsx. -/
def supportedFormats : List String :=
  [(".mp3"), (".wav"), (".m4a"), (".aac"), (".flac"), (".ogg")]

/-- `'.' + selectedFile.name.split('.').pop()?.toLowerCase()` from
`handleFileSelect`: JavaScript `split('.')` never yields an empty array, and
`pop` takes its last element. -/
def fileExtension (name : String) : String :=
  (".") ++ ((name.splitOn (".")).getLastD ("")).toLower

/-- The error text `handleFileSelect` sets for an unsupported extension
(the template literal over `supportedFormats.join(', ')`). -/
def unsupportedFormatMessage : String :=
  ("지원하지 않는 파일 형식입니다. 지원 형식: ") ++
    String.intercalate (", ") supportedFormats

/-- `handleFileSelect` of page.tsx as a state transformer.  The second
component lists the network requests the handler issues; in the base UI
the handler performs no fetch (uploading is a separate button), so it is
always empty.  On an unsupported extension the handler sets the error and
returns early; otherwise it stores the file and resets error, upload
result, generate result and status. -/
def handleFileSelect (s : HomeState) (f : SelectedFile) : HomeState × List String :=
  if fileExtension f.name ∈ supportedFormats then
    ({ file := some f
       error := ("")
       uploadResult := none
       generateResult := none
       status := ProcessStatus.idle }, [])
  else
    ({ s with error := unsupportedFormatMessage }, [])

/-! ## Phase-2 UI transition controls (frontend/src/app/phase2/page.tsx) -/

/-- The values offered by the `transitionType` Select of phase2/page.tsx:
its `SelectItem`s are exactly `fade`, `crossfade`, `dissolve`, `none`. -/
def transitionTypeOptions : List String :=
  [("fade"), ("crossfade"), ("dissolve"), ("none")]

/-- The three React states `transitionType`, `transitionDuration`,
`transitionIntensity` of phase2/page.tsx. -/
structure TransitionUIState where
  transitionType : String
  transitionDuration : ℚ
  transitionIntensity : ℚ
deriving DecidableEq, Repr

/-- Initial values `useState('fade')`, `useState(1.2)`, `useState(0.8)`. -/
def initialTransitionUI : TransitionUIState :=
  { transitionType := ("fade")
    transitionDuration := 6/5
    transitionIntensity := 4/5 }

/-- A user interaction with one of the three transition controls. -/
inductive TransitionUIEvent
  | selectTransitionType (v : String)
  | setTransitionDuration (v : ℚ)
  | setTransitionIntensity (v : ℚ)

/-- The value an HTML range input reports: clamped to its `min`/`max`
attributes. -/
def rangeInputValue (lo hi v : ℚ) : ℚ :=
  min hi (max lo v)

/-- One step of the phase2 transition controls: the Select only emits the
values of its items; the two sliders carry `min="0.3" max="3.0"` and
`min="0.1" max="1.0"` and are `disabled` while `transitionType === 'none'`. -/
def uiStep (s : TransitionUIState) : TransitionUIEvent → TransitionUIState
  | TransitionUIEvent.selectTransitionType v =>
      if v ∈ transitionTypeOptions then { s with transitionType := v } else s
  | TransitionUIEvent.setTransitionDuration v =>
      if s.transitionType = ("none") then s
      else { s with transitionDuration := rangeInputValue (3/10) 3 v }
  | TransitionUIEvent.setTransitionIntensity v =>
      if s.transitionType = ("none") then s
      else { s with transitionIntensity := rangeInputValue (1/10) 1 v }

/-- The bounds the spec states for `TransitionSpec`: type among the four
enum values, duration in [0.3, 3.0], intensity in [0.1, 1.0]. -/
def TransitionUIInv (s : TransitionUIState) : Prop :=
  s.transitionType ∈ transitionTypeOptions ∧
    3/10 ≤ s.transitionDuration ∧ s.transitionDuration ≤ 3 ∧
    1/10 ≤ s.transitionIntensity ∧ s.transitionIntensity ≤ 1

theorem uiStep_preserves_inv (s : TransitionUIState) (e : TransitionUIEvent)
    (h : TransitionUIInv s) : TransitionUIInv (uiStep s e) := by
  obtain ⟨ht, hd1, hd2, hi1, hi2⟩ := h
  cases e with
  | selectTransitionType v =>
      by_cases hv : v ∈ transitionTypeOptions
      · simp only [uiStep, if_pos hv]
        exact ⟨hv, hd1, hd2, hi1, hi2⟩
      · simp only [uiStep, if_neg hv]
        exact ⟨ht, hd1, hd2, hi1, hi2⟩
  | setTransitionDuration v =>
      by_cases hn : s.transitionType = ("none")
      · simp only [uiStep, if_pos hn]
        exact ⟨ht, hd1, hd2, hi1, hi2⟩
      · simp only [uiStep, if_neg hn]
        refine ⟨ht, ?_, ?_, hi1, hi2⟩
        · exact le_min (by norm_num) (le_max_left _ _)
        · exact min_le_left _ _
  | setTransitionIntensity v =>
      by_cases hn : s.transitionType = ("none")
      · simp only [uiStep, if_pos hn]
        exact ⟨ht, hd1, hd2, hi1, hi2⟩
      · simp only [uiStep, if_neg hn]
        refine ⟨ht, hd1, hd2, ?_, ?_⟩
        · exact le_min (by norm_num) (le_max_left _ _)
        · exact min_le_left _ _

theorem foldl_uiStep_inv (events : List TransitionUIEvent) (s : TransitionUIState)
    (h : TransitionUIInv s) : TransitionUIInv (events.foldl uiStep s) := by
  induction events generalizing s with
  | nil => exact h
  | cons e rest ih => exact ih _ (uiStep_preserves_inv s e h)

/-! ## Transcript data model and quality analysis -/

/-- One transcript segment: start time, end time, text and per-segment
confidence, as consumed by the UI and described by the spec (§3). -/
structure TranscriptSegment where
  start : ℚ
  stop : ℚ
  text : String
  confidence : ℚ
deriving DecidableEq, Repr

/-- A transcription attempt's output: its segments plus the model that
produced it (§3 TranscriptionResult). -/
structure TranscriptionResult where
  segments : List TranscriptSegment
  language : String
  model_used : String
deriving DecidableEq, Repr

/-- `interface QualityMetrics` of phase2/page.tsx (lines 42-52): six
bounded scores, the reprocessing flag, the optional recommended model and
the suggestion list. -/
structure QualityMetrics where
  overall_score : ℚ
  confidence_score : ℚ
  korean_quality_score : ℚ
  grammar_score : ℚ
  consistency_score : ℚ
  completeness_score : ℚ
  needs_reprocessing : Bool
  recommended_model : Option String
  improvement_suggestions : List String
deriving DecidableEq, Repr

/-- Modelled from the spec: the Quality Analyzer's candidate search
(backend code absent from the repository files).  A candidate alternate
model is one that differs from the model that produced the analyzed
result and whose expected quality is higher (§4.2). -/
def candidateModels (models : List String) (used : String)
    (expectedQuality : String → ℚ) : List String :=
  models.filter fun m => decide (m ≠ used ∧ expectedQuality used < expectedQuality m)

/-- Modelled from the spec: the Quality Analyzer's reprocessing decision
(§4.2, backend code absent from the repository files).
`needs_reprocessing` is true iff the overall score falls below the target
quality and a candidate alternate model exists; `recommended_model` is
populated only in that case, with such a candidate. -/
def analyzeDecision (overall target : ℚ) (models : List String) (used : String)
    (expectedQuality : String → ℚ) : Bool × Option String :=
  let cands := candidateModels models used expectedQuality
  let needs := decide (overall < target) && !cands.isEmpty
  (needs, if needs then cands.head? else none)

/-- Modelled from the spec: assembly of the QualityMetrics record from
the sub-scores and the reprocessing decision (§4.2, backend code absent
from the repository files). -/
def mkQualityMetrics (overall confidence korean grammar consistency completeness : ℚ)
    (target : ℚ) (models : List String) (used : String)
    (expectedQuality : String → ℚ) (suggestions : List String) : QualityMetrics :=
  let d := analyzeDecision overall target models used expectedQuality
  { overall_score := overall
    confidence_score := confidence
    korean_quality_score := korean
    grammar_score := grammar
    consistency_score := consistency
    completeness_score := completeness
    needs_reprocessing := d.1
    recommended_model := d.2
    improvement_suggestions := suggestions }

theorem candidateModels_mem {models : List String} {used : String}
    {expectedQuality : String → ℚ} {m : String}
    (h : m ∈ candidateModels models used expectedQuality) :
    m ∈ models ∧ m ≠ used ∧ expectedQuality used < expectedQuality m := by
  have h' := List.mem_filter.mp h
  exact ⟨h'.1, of_decide_eq_true h'.2⟩

theorem candidateModels_ne_nil_iff {models : List String} {used : String}
    {expectedQuality : String → ℚ} :
    candidateModels models used expectedQuality ≠ [] ↔
      ∃ m ∈ models, m ≠ used ∧ expectedQuality used < expectedQuality m := by
  constructor
  · intro h
    obtain ⟨m, hm⟩ := List.exists_mem_of_ne_nil _ h
    obtain ⟨h1, h2, h3⟩ := candidateModels_mem hm
    exact ⟨m, h1, h2, h3⟩
  · rintro ⟨m, h1, h2, h3⟩ hnil
    have : m ∈ candidateModels models used expectedQuality :=
      List.mem_filter.mpr ⟨h1, decide_eq_true ⟨h2, h3⟩⟩
    simp [hnil] at this

/-! ## Reprocessing orchestration -/

/-- Outcome of one pipeline run: the returned transcription result, its
metrics, the list of transcription attempts made (in order), and the
`reprocessed` flag of the GenerationResult. -/
structure ProcessOutcome where
  result : TranscriptionResult
  metrics : QualityMetrics
  attempts : List TranscriptionResult
  reprocessed : Bool
deriving Repr

/-- Modelled from the spec: the orchestrator's reprocessing decision loop
(§4.3, backend code absent from the repository files).  One transcription
attempt, analysis; if auto-reprocessing is enabled, the metrics ask for
reprocessing and a recommended model is given, one further attempt with
that model, and the higher-scoring result is returned, ties keeping the
original.  At most one reprocessing attempt ever occurs. -/
def processWithReprocessing (transcribe : String → TranscriptionResult)
    (analyze : TranscriptionResult → QualityMetrics)
    (enableAutoReprocessing : Bool) (model0 : String) : ProcessOutcome :=
  let r1 := transcribe model0
  let m1 := analyze r1
  match enableAutoReprocessing, m1.needs_reprocessing, m1.recommended_model with
  | true, true, some alt =>
      let r2 := transcribe alt
      let m2 := analyze r2
      if m1.overall_score < m2.overall_score then
        { result := r2, metrics := m2, attempts := [r1, r2], reprocessed := true }
      else
        { result := r1, metrics := m1, attempts := [r1, r2], reprocessed := true }
  | _, _, _ =>
      { result := r1, metrics := m1, attempts := [r1], reprocessed := false }

/-- C1: with `enable_auto_reprocessing = true`, at most two transcription
attempts occur, the returned result is one of them, its metrics are its
own analysis, its overall score is the maximum of the attempts' scores,
and when the second attempt does not strictly beat the first the original
is returned. -/
theorem processWithReprocessing_bound_and_best
    (transcribe : String → TranscriptionResult)
    (analyze : TranscriptionResult → QualityMetrics) (model0 : String) :
    (processWithReprocessing transcribe analyze true model0).attempts.length ≤ 2 ∧
    (processWithReprocessing transcribe analyze true model0).result ∈
      (processWithReprocessing transcribe analyze true model0).attempts ∧
    (processWithReprocessing transcribe analyze true model0).metrics =
      analyze (processWithReprocessing transcribe analyze true model0).result ∧
    (∀ r ∈ (processWithReprocessing transcribe analyze true model0).attempts,
      (analyze r).overall_score ≤
        (processWithReprocessing transcribe analyze true model0).metrics.overall_score) ∧
    (∃ r ∈ (processWithReprocessing transcribe analyze true model0).attempts,
      (analyze r).overall_score =
        (processWithReprocessing transcribe analyze true model0).metrics.overall_score) ∧
    (∀ r2 : TranscriptionResult,
      (processWithReprocessing transcribe analyze true model0).attempts =
        [transcribe model0, r2] →
      (analyze r2).overall_score ≤ (analyze (transcribe model0)).overall_score →
      (processWithReprocessing transcribe analyze true model0).result =
        transcribe model0) := by
  cases hn : (analyze (transcribe model0)).needs_reprocessing with
  | false =>
      simp only [processWithReprocessing, hn]
      refine ⟨by simp, by simp, trivial, ?_, ?_, ?_⟩
      · intro r hr
        rcases List.mem_singleton.mp hr with h'
        subst h'
        exact le_refl _
      · exact ⟨transcribe model0, by simp, rfl⟩
      · intro r2 hatt _
        simp at hatt
  | true =>
      cases hr : (analyze (transcribe model0)).recommended_model with
      | none =>
          simp only [processWithReprocessing, hn, hr]
          refine ⟨by simp, by simp, trivial, ?_, ?_, ?_⟩
          · intro r hrm
            rcases List.mem_singleton.mp hrm with h'
            subst h'
            exact le_refl _
          · exact ⟨transcribe model0, by simp, rfl⟩
          · intro r2 hatt _
            simp at hatt
      | some alt =>
          simp only [processWithReprocessing, hn, hr]
          by_cases hlt : (analyze (transcribe model0)).overall_score <
              (analyze (transcribe alt)).overall_score
          · simp only [if_pos hlt]
            refine ⟨by simp, by simp, trivial, ?_, ?_, ?_⟩
            · intro r hrm
              rcases List.mem_pair.mp hrm with h | h <;> subst h
              · exact le_of_lt hlt
              · exact le_refl _
            · exact ⟨transcribe alt, by simp, rfl⟩
            · intro r2 hatt hle
              have h2 : r2 = transcribe alt := by
                simpa using (congrArg (fun l => l.getLast?) hatt).symm
              subst h2
              exact absurd hlt (not_lt.mpr hle)
          · simp only [if_neg hlt]
            refine ⟨by simp, by simp, trivial, ?_, ?_, ?_⟩
            · intro r hrm
              rcases List.mem_pair.mp hrm with h | h <;> subst h
              · exact le_refl _
              · exact not_lt.mp hlt
            · exact ⟨transcribe model0, by simp, rfl⟩
            · intro r2 _ _
              trivial

/-! ## Background composer -/

/-- Transition effect types of the spec's TransitionSpec enum and the
phase2 UI's `transition_type` request field. -/
inductive TransitionType
  | none
  | fade
  | crossfade
  | dissolve
deriving DecidableEq, Repr

/-- The spec's TransitionSpec: effect type, boundary duration in seconds,
intensity fraction (§3). -/
structure TransitionSpec where
  type : TransitionType
  duration : ℚ
  intensity : ℚ
deriving DecidableEq, Repr

/-- The spec's BackgroundSpec (§3): a solid colour, or a looping template
with its native duration. -/
inductive BackgroundSpec
  | color (value : String)
  | template (templateId : String) (nativeDuration : ℚ) (resolution : String)
deriving DecidableEq, Repr

/-- Modelled from the spec: the Background Composer's loop count
`n = ceil(targetDuration / D)` (§4.5; the composer's backend code is
absent from the repository files). -/
def loopCount (nativeDuration targetDuration : ℚ) : ℕ :=
  (Int.ceil (targetDuration / nativeDuration)).toNat

/-- Modelled from the spec: the durations of the loop iterations the
Background Composer concatenates (§4.5; backend code absent from the
repository files).  A colour background is one solid-fill stream of the
target duration; a template is repeated `n` times with the last copy
truncated to fit. -/
def loopDurations : BackgroundSpec → ℚ → List ℚ
  | BackgroundSpec.color _, targetDuration => [targetDuration]
  | BackgroundSpec.template _ d _, targetDuration =>
      let n := loopCount d targetDuration
      List.replicate (n - 1) d ++ [targetDuration - ((n - 1 : ℕ) : ℚ) * d]

/-- Modelled from the spec: the transition boundaries the Background
Composer inserts (§4.5; backend code absent from the repository files).
No boundaries for colour backgrounds, a `none` transition or a single
loop; otherwise `n - 1` boundaries sized to the transition duration,
proportionally shortened when their total would exceed the target
duration. -/
def transitionBoundaries : BackgroundSpec → TransitionSpec → ℚ → List ℚ
  | BackgroundSpec.color _, _, _ => []
  | BackgroundSpec.template _ d _, tr, targetDuration =>
      let n := loopCount d targetDuration
      if tr.type = TransitionType.none ∨ n ≤ 1 then []
      else
        let b :=
          if tr.duration * ((n - 1 : ℕ) : ℚ) ≤ targetDuration then tr.duration
          else targetDuration / ((n - 1 : ℕ) : ℚ)
        List.replicate (n - 1) b

/-- The composed background video stream: its loop iteration durations,
its transition boundary durations, the output resolution, and silence
(the template's own audio is discarded). -/
structure VideoStream where
  loops : List ℚ
  transitions : List ℚ
  resolution : String
  silent : Bool
deriving DecidableEq, Repr

/-- Total duration of the composed stream: the loop durations add up. -/
def VideoStream.duration (v : VideoStream) : ℚ :=
  v.loops.sum

/-- Modelled from the spec: the Background Composer's contract
`compose(spec, transition, targetDuration, resolution)` (§4.5; backend
code absent from the repository files). -/
def compose (spec : BackgroundSpec) (tr : TransitionSpec) (targetDuration : ℚ)
    (resolution : String) : VideoStream :=
  { loops := loopDurations spec targetDuration
    transitions := transitionBoundaries spec tr targetDuration
    resolution := resolution
    silent := true }

/-- Well-formedness of reference background data: a template's native
duration is positive (§3: templates carry a known source duration). -/
def BackgroundSpecWF : BackgroundSpec → Prop
  | BackgroundSpec.color _ => True
  | BackgroundSpec.template _ d _ => 0 < d

theorem loopCount_pos (d targetDuration : ℚ) (hd : 0 < d) (ht : 0 < targetDuration) :
    1 ≤ loopCount d targetDuration := by
  unfold loopCount
  have hpos : (0 : ℤ) < ⌈targetDuration / d⌉ := Int.ceil_pos.mpr (div_pos ht hd)
  omega

/-- C2: a template-based composition produces `ceil(targetDuration / D)`
loop iterations, the last one truncated to the remainder
`targetDuration - (n-1) * D`. -/
theorem compose_template_loop_count (templateId res outRes : String)
    (tr : TransitionSpec) (d targetDuration : ℚ)
    (hd : 0 < d) (ht : 0 < targetDuration) :
    (compose (BackgroundSpec.template templateId d res) tr targetDuration outRes).loops.length
      = (Int.ceil (targetDuration / d)).toNat ∧
    (compose (BackgroundSpec.template templateId d res) tr targetDuration outRes).loops.getLast?
      = some (targetDuration - (((Int.ceil (targetDuration / d)).toNat - 1 : ℕ) : ℚ) * d) := by
  have h1 := loopCount_pos d targetDuration hd ht
  constructor
  · simp only [compose, loopDurations, List.length_append, List.length_replicate,
      List.length_singleton]
    unfold loopCount at h1 ⊢
    omega
  · simp only [compose, loopDurations, List.getLast?_concat, loopCount]

/-- C2 witness: for the `particles_dark` template (native duration
25.96 s) and a 90 s target, exactly 4 iterations with the last truncated
to 12.12 s. -/
theorem compose_template_loop_count_witness :
    (0 : ℚ) < 2596/100 ∧ (0 : ℚ) < 90 ∧
    (compose (BackgroundSpec.template ("particles_dark") (2596/100) ("1920x1080"))
        { type := TransitionType.fade, duration := 6/5, intensity := 4/5 }
        90 ("1080p")).loops.length = 4 ∧
    (compose (BackgroundSpec.template ("particles_dark") (2596/100) ("1920x1080"))
        { type := TransitionType.fade, duration := 6/5, intensity := 4/5 }
        90 ("1080p")).loops.getLast? = some (1212/100) := by
  have hceil : ⌈(90 : ℚ) / (2596/100)⌉ = 4 := by
    rw [Int.ceil_eq_iff]
    constructor <;> norm_num
  have h := compose_template_loop_count ("particles_dark") ("1920x1080") ("1080p")
      { type := TransitionType.fade, duration := 6/5, intensity := 4/5 }
      (2596/100) 90 (by norm_num) (by norm_num)
  rw [hceil] at h
  refine ⟨by norm_num, by norm_num, ?_, ?_⟩
  · rw [h.1]
    rfl
  · rw [h.2, show Int.toNat 4 = 4 from rfl]
    norm_num

/-- C3: the composed background stream's duration equals the target
duration to within any nonnegative frame interval (it is in fact exact),
for both colour and template backgrounds and any loop count. -/
theorem compose_duration_exact (spec : BackgroundSpec) (tr : TransitionSpec)
    (targetDuration frameInterval : ℚ) (outRes : String)
    (hwf : BackgroundSpecWF spec) (ht : 0 < targetDuration)
    (hf : 0 ≤ frameInterval) :
    |(compose spec tr targetDuration outRes).duration - targetDuration| ≤ frameInterval := by
  have hexact : (compose spec tr targetDuration outRes).duration = targetDuration := by
    cases spec with
    | color v =>
        simp [compose, VideoStream.duration, loopDurations]
    | template templateId d res =>
        simp only [compose, VideoStream.duration, loopDurations, List.sum_append,
          List.sum_replicate, List.sum_cons, List.sum_nil, nsmul_eq_mul]
        ring
  rw [hexact, sub_self, abs_zero]
  exact hf

/-- C3 witness: the 25.96 s template looped to a 90 s target stays within
a 1/30 s frame interval of 90 s. -/
theorem compose_duration_exact_witness :
    |(compose (BackgroundSpec.template ("particles_dark") (2596/100) ("1920x1080"))
        { type := TransitionType.crossfade, duration := 6/5, intensity := 4/5 }
        90 ("1080p")).duration - 90| ≤ 1/30 :=
  compose_duration_exact
    (BackgroundSpec.template ("particles_dark") (2596/100) ("1920x1080"))
    { type := TransitionType.crossfade, duration := 6/5, intensity := 4/5 }
    90 (1/30) ("1080p") (by norm_num [BackgroundSpecWF]) (by norm_num) (by norm_num)

/-- C4 counterexample: template of native duration 1.5 s, target 5 s
(so n = 4 > 1), crossfade of duration 3 s.  The spec's own edge rule
shortens the boundaries proportionally (3 s × 3 boundaries > 5 s), so
each produced boundary is 5/3 s, not the requested 3 s, and it exceeds
the 0.5 s final clip. -/
theorem transition_exact_duration_cex :
    ({ type := TransitionType.crossfade, duration := 3, intensity := 4/5 } :
        TransitionSpec).type ≠ TransitionType.none ∧
    1 < loopCount (3/2) 5 ∧
    ¬ (∀ b ∈ (compose (BackgroundSpec.template ("t") (3/2) ("1280x720"))
          { type := TransitionType.crossfade, duration := 3, intensity := 4/5 }
          5 ("720p")).transitions,
        b = ({ type := TransitionType.crossfade, duration := 3, intensity := 4/5 } :
          TransitionSpec).duration) ∧
    ¬ (∀ b ∈ (compose (BackgroundSpec.template ("t") (3/2) ("1280x720"))
          { type := TransitionType.crossfade, duration := 3, intensity := 4/5 }
          5 ("720p")).transitions,
        ∀ c ∈ (compose (BackgroundSpec.template ("t") (3/2) ("1280x720"))
          { type := TransitionType.crossfade, duration := 3, intensity := 4/5 }
          5 ("720p")).loops, b ≤ c) := by
  have hceil : ⌈(5 : ℚ) / (3/2)⌉ = 4 := by
    rw [Int.ceil_eq_iff]
    constructor <;> norm_num
  have hn : loopCount (3/2) 5 = 4 := by
    rw [loopCount, hceil]
    rfl
  have htr : (compose (BackgroundSpec.template ("t") (3/2) ("1280x720"))
      { type := TransitionType.crossfade, duration := 3, intensity := 4/5 }
      5 ("720p")).transitions = List.replicate 3 (5/3) := by
    simp only [compose, transitionBoundaries, hn]
    rw [if_neg (by simp), if_neg (by norm_num)]
    norm_num
  have hloops : (compose (BackgroundSpec.template ("t") (3/2) ("1280x720"))
      { type := TransitionType.crossfade, duration := 3, intensity := 4/5 }
      5 ("720p")).loops = [3/2, 3/2, 3/2, 1/2] := by
    simp only [compose, loopDurations, hn]
    norm_num [List.replicate]
  refine ⟨by simp, by rw [hn]; norm_num, ?_, ?_⟩
  · intro hall
    have h53 := hall (5/3) (by rw [htr]; exact List.mem_replicate.mpr ⟨by norm_num, rfl⟩)
    norm_num at h53
  · intro hall
    have h53 := hall (5/3) (by rw [htr]; exact List.mem_replicate.mpr ⟨by norm_num, rfl⟩)
      (1/2) (by rw [hloops]; simp)
    norm_num at h53

/-- C4 (amended): when the requested transition actually fits — its total
length over the n-1 boundaries does not exceed the target duration, and
it is no longer than any loop iteration — a template composition with a
non-`none` transition and n > 1 produces exactly n-1 boundaries, each
exactly `transition.duration` long and none exceeding any clip duration;
and when `targetDuration ≤ D` the output is the single trimmed copy with
no transition. -/
theorem transition_boundaries_amended (templateId res outRes : String)
    (tr : TransitionSpec) (d targetDuration : ℚ)
    (hd : 0 < d) (ht : 0 < targetDuration) :
    (tr.type ≠ TransitionType.none →
      1 < loopCount d targetDuration →
      tr.duration * ((loopCount d targetDuration - 1 : ℕ) : ℚ) ≤ targetDuration →
      (∀ c ∈ (compose (BackgroundSpec.template templateId d res) tr
          targetDuration outRes).loops, tr.duration ≤ c) →
      (compose (BackgroundSpec.template templateId d res) tr
          targetDuration outRes).transitions.length = loopCount d targetDuration - 1 ∧
        ∀ b ∈ (compose (BackgroundSpec.template templateId d res) tr
            targetDuration outRes).transitions,
          b = tr.duration ∧
            ∀ c ∈ (compose (BackgroundSpec.template templateId d res) tr
                targetDuration outRes).loops, b ≤ c) ∧
    (targetDuration ≤ d →
      (compose (BackgroundSpec.template templateId d res) tr
          targetDuration outRes).loops = [targetDuration] ∧
      (compose (BackgroundSpec.template templateId d res) tr
          targetDuration outRes).transitions = []) := by
  constructor
  · intro htype hn hfit hclip
    have hcond : ¬(tr.type = TransitionType.none ∨ loopCount d targetDuration ≤ 1) := by
      rintro (h | h)
      · exact htype h
      · omega
    have htr : (compose (BackgroundSpec.template templateId d res) tr
        targetDuration outRes).transitions
          = List.replicate (loopCount d targetDuration - 1) tr.duration := by
      simp only [compose, transitionBoundaries]
      rw [if_neg hcond, if_pos hfit]
    rw [htr]
    refine ⟨List.length_replicate _ _, ?_⟩
    intro b hb
    have hbeq := List.eq_of_mem_replicate hb
    subst hbeq
    exact ⟨rfl, fun c hc => hclip c hc⟩
  · intro hle
    have hone : loopCount d targetDuration = 1 := by
      rw [loopCount]
      have h1 : ⌈targetDuration / d⌉ = 1 := by
        rw [Int.ceil_eq_iff]
        constructor
        · push_cast
          simpa using div_pos ht hd
        · push_cast
          exact (div_le_one hd).mpr hle
      rw [h1]
      rfl
    constructor
    · simp only [compose, loopDurations, hone]
      norm_num
    · simp only [compose, transitionBoundaries, hone]
      rw [if_pos (Or.inr (le_refl 1))]

/-- C4 witness: the spec's example — 25.96 s template, 90 s target
(n = 4), crossfade of 1.2 s — yields exactly 3 boundaries, each 1.2 s. -/
theorem transition_boundaries_amended_witness :
    (compose (BackgroundSpec.template ("particles_dark") (2596/100) ("1920x1080"))
        { type := TransitionType.crossfade, duration := 6/5, intensity := 4/5 }
        90 ("1080p")).transitions.length = 3 ∧
    ∀ b ∈ (compose (BackgroundSpec.template ("particles_dark") (2596/100) ("1920x1080"))
        { type := TransitionType.crossfade, duration := 6/5, intensity := 4/5 }
        90 ("1080p")).transitions, b = 6/5 := by
  have hceil : ⌈(90 : ℚ) / (2596/100)⌉ = 4 := by
    rw [Int.ceil_eq_iff]
    constructor <;> norm_num
  have hn : loopCount (2596/100) 90 = 4 := by
    rw [loopCount, hceil]
    rfl
  have hloops : (compose (BackgroundSpec.template ("particles_dark") (2596/100)
      ("1920x1080"))
      { type := TransitionType.crossfade, duration := 6/5, intensity := 4/5 }
      90 ("1080p")).loops = [2596/100, 2596/100, 2596/100, 1212/100] := by
    simp only [compose, loopDurations, hn]
    norm_num [List.replicate]
  have h := (transition_boundaries_amended ("particles_dark") ("1920x1080") ("1080p")
      { type := TransitionType.crossfade, duration := 6/5, intensity := 4/5 }
      (2596/100) 90 (by norm_num) (by norm_num)).1
      (by simp)
      (by rw [hn]; norm_num)
      (by rw [hn]; norm_num)
      (by rw [hloops]; intro c hc; fin_cases hc <;> norm_num)
  obtain ⟨hlen, hall⟩ := h
  refine ⟨by rw [hlen, hn], ?_⟩
  intro b hb
  exact (hall b hb).1

/-! ## Video muxer -/

/-- Kind of a container stream. -/
inductive StreamKind
  | video
  | audio
deriving DecidableEq, Repr

/-- Provenance of a stream fed to or produced by the encoder. -/
inductive StreamOrigin
  | composedBackground
  | originalAudio
  | templateAudio
deriving DecidableEq, Repr

/-- A single stream within a media input or output. -/
structure MediaStream where
  kind : StreamKind
  origin : StreamOrigin
deriving DecidableEq, Repr

/-- Modelled from the spec: the encoder's stream-mapping directive
`-map 0:v -map 1:a` (dev guide; §4.6, §6 — the muxer's backend code is
absent from the repository files): the output container receives the
video streams of input 0 and the audio streams of input 1. -/
def mapStreams (input0 input1 : List MediaStream) : List MediaStream :=
  input0.filter (fun s => decide (s.kind = StreamKind.video)) ++
    input1.filter (fun s => decide (s.kind = StreamKind.audio))

/-- Modelled from the spec: the Video Muxer's inputs for a template-based
composition (§4.6; backend code absent from the repository files):
input 0 is the composed background — its video stream plus the template's
own audio track when the template carries one — and input 1 is the
original uploaded audio. -/
def muxTemplate (templateHasAudio : Bool) : List MediaStream :=
  mapStreams
    ({ kind := StreamKind.video, origin := StreamOrigin.composedBackground } ::
      (if templateHasAudio then
        [{ kind := StreamKind.audio, origin := StreamOrigin.templateAudio }]
      else []))
    [{ kind := StreamKind.audio, origin := StreamOrigin.originalAudio }]

/-- C5: a template-based mux always outputs exactly one video and one
audio stream; every audio stream in the output originates from the
original uploaded audio, and no output stream originates from the
template's audio track — whether or not the template carries audio. -/
theorem muxTemplate_streams (templateHasAudio : Bool) :
    ((muxTemplate templateHasAudio).filter
      (fun s => decide (s.kind = StreamKind.video))).length = 1 ∧
    ((muxTemplate templateHasAudio).filter
      (fun s => decide (s.kind = StreamKind.audio))).length = 1 ∧
    (∀ s ∈ muxTemplate templateHasAudio,
      s.kind = StreamKind.audio → s.origin = StreamOrigin.originalAudio) ∧
    (∀ s ∈ muxTemplate templateHasAudio, s.origin ≠ StreamOrigin.templateAudio) := by
  cases templateHasAudio <;> decide

/-! ## Text correction -/

/-- The spec's CorrectionResult (§3): corrected segments, the number of
corrections, the strategy label, a quality score and improvement notes. -/
structure CorrectionResult where
  segments : List TranscriptSegment
  total_corrections : Nat
  correction_strategy : String
  quality_score : ℚ
  improvements : List String
deriving DecidableEq, Repr

/-- Modelled from the spec: how the Text Correction Service rebuilds the
segment sequence from the backend's corrected texts (§4.4; backend code
absent from the repository files) — each segment keeps its timing and
confidence, only its text is replaced; segments beyond the returned
texts are kept as they were. -/
def applyCorrectedTexts : List TranscriptSegment → List String → List TranscriptSegment
  | [], _ => []
  | s :: ss, [] => s :: applyCorrectedTexts ss []
  | s :: ss, t :: ts => { s with text := t } :: applyCorrectedTexts ss ts

/-- Modelled from the spec: the Text Correction Service's contract
`correct(segments) → CorrectionResult` (§4.4; backend code absent from
the repository files).  The backend sees the full sequence at once; the
bookkeeping fields are set by backend/configuration, not derived here. -/
def correct (backendTexts : List TranscriptSegment → List String)
    (corrections : Nat) (strategy : String) (score : ℚ)
    (improvements : List String) (s : List TranscriptSegment) : CorrectionResult :=
  { segments := applyCorrectedTexts s (backendTexts s)
    total_corrections := corrections
    correction_strategy := strategy
    quality_score := score
    improvements := improvements }

theorem applyCorrectedTexts_length (s : List TranscriptSegment) (ts : List String) :
    (applyCorrectedTexts s ts).length = s.length := by
  induction s generalizing ts with
  | nil => rfl
  | cons a ss ih =>
      cases ts with
      | nil => simp [applyCorrectedTexts, ih]
      | cons t ts' => simp [applyCorrectedTexts, ih]

theorem applyCorrectedTexts_timing (s : List TranscriptSegment) (ts : List String)
    (i : ℕ) :
    ((applyCorrectedTexts s ts).get? i).map TranscriptSegment.start
        = (s.get? i).map TranscriptSegment.start ∧
    ((applyCorrectedTexts s ts).get? i).map TranscriptSegment.stop
        = (s.get? i).map TranscriptSegment.stop ∧
    ((applyCorrectedTexts s ts).get? i).map TranscriptSegment.confidence
        = (s.get? i).map TranscriptSegment.confidence := by
  induction s generalizing ts i with
  | nil => simp [applyCorrectedTexts]
  | cons a ss ih =>
      cases ts with
      | nil =>
          cases i with
          | zero => simp [applyCorrectedTexts]
          | succ j => simpa [applyCorrectedTexts] using ih [] j
      | cons t ts' =>
          cases i with
          | zero => simp [applyCorrectedTexts]
          | succ j => simpa [applyCorrectedTexts] using ih ts' j

/-- C7: text correction preserves segment count, order, timing and
confidence at every index — only each segment's text may change. -/
theorem correct_preserves_structure
    (backendTexts : List TranscriptSegment → List String)
    (corrections : Nat) (strategy : String) (score : ℚ)
    (improvements : List String) (s : List TranscriptSegment) :
    (correct backendTexts corrections strategy score improvements s).segments.length
        = s.length ∧
    ∀ i : ℕ,
      ((correct backendTexts corrections strategy score improvements s).segments.get?
          i).map TranscriptSegment.start = (s.get? i).map TranscriptSegment.start ∧
      ((correct backendTexts corrections strategy score improvements s).segments.get?
          i).map TranscriptSegment.stop = (s.get? i).map TranscriptSegment.stop ∧
      ((correct backendTexts corrections strategy score improvements s).segments.get?
          i).map TranscriptSegment.confidence
        = (s.get? i).map TranscriptSegment.confidence :=
  ⟨applyCorrectedTexts_length s (backendTexts s),
    fun i => applyCorrectedTexts_timing s (backendTexts s) i⟩

/-! ## Correction failure handling -/

/-- The spec's CorrectionError kinds (§4.4, §7). -/
inductive CorrectionError
  | backendUnavailable
  | rateLimited
  | invalidInput
deriving DecidableEq, Repr

/-- The slice of the spec's GenerationResult that the correction stage
determines: the final transcript segments and the
`gpt_correction_applied` flag the phase2 UI displays. -/
structure GenerationOutcome where
  segments : List TranscriptSegment
  gpt_correction_applied : Bool
deriving DecidableEq, Repr

/-- Modelled from the spec: the orchestrator's correction stage (§4.4,
§7; backend code absent from the repository files).  A failed correction
is recovered locally: the uncorrected transcript is kept and the flag is
false; a successful correction substitutes the corrected segments. -/
def runCorrectionStage
    (corrector : List TranscriptSegment → Except CorrectionError CorrectionResult)
    (s : List TranscriptSegment) : List TranscriptSegment × Bool :=
  match corrector s with
  | Except.ok c => (c.segments, true)
  | Except.error _ => (s, false)

/-- Modelled from the spec: the pipeline completes the request after the
correction stage — correction errors never fail the request (§7
propagation policy; backend code absent from the repository files). -/
def finalizeGeneration
    (corrector : List TranscriptSegment → Except CorrectionError CorrectionResult)
    (s : List TranscriptSegment) : Except CorrectionError GenerationOutcome :=
  Except.ok
    { segments := (runCorrectionStage corrector s).1
      gpt_correction_applied := (runCorrectionStage corrector s).2 }

/-- C8: whenever the corrector fails with any CorrectionError, the
pipeline still returns a successful GenerationOutcome carrying the
uncorrected segments unchanged and `gpt_correction_applied = false`. -/
theorem correction_failure_skips
    (corrector : List TranscriptSegment → Except CorrectionError CorrectionResult)
    (s : List TranscriptSegment) (e : CorrectionError)
    (h : corrector s = Except.error e) :
    finalizeGeneration corrector s =
      Except.ok { segments := s, gpt_correction_applied := false } := by
  simp [finalizeGeneration, runCorrectionStage, h]

/-- C8 witness: a corrector that always reports a rate limit leaves a
one-segment transcript untouched and the flag false. -/
theorem correction_failure_skips_witness :
    finalizeGeneration (fun _ => Except.error CorrectionError.rateLimited)
        [{ start := 0, stop := 1, text := ("안녕하세요"), confidence := 9/10 }] =
      Except.ok
        { segments := [{ start := 0, stop := 1, text := ("안녕하세요"), confidence := 9/10 }]
          gpt_correction_applied := false } :=
  correction_failure_skips (fun _ => Except.error CorrectionError.rateLimited)
    [{ start := 0, stop := 1, text := ("안녕하세요"), confidence := 9/10 }]
    CorrectionError.rateLimited rfl

/-- C6: over the analyzer's decision logic, `needs_reprocessing` holds
iff the overall score is below the target quality and a candidate
alternate model of expected higher quality exists, and
`recommended_model` is populated only in that case, always with a model
different from the one analyzed. -/
theorem qualityMetrics_decision
    (overall confidence korean grammar consistency completeness target : ℚ)
    (models : List String) (used : String) (expectedQuality : String → ℚ)
    (suggestions : List String) :
    ((mkQualityMetrics overall confidence korean grammar consistency completeness
        target models used expectedQuality suggestions).needs_reprocessing = true ↔
      overall < target ∧
        ∃ alt ∈ models, alt ≠ used ∧ expectedQuality used < expectedQuality alt) ∧
    (∀ alt, (mkQualityMetrics overall confidence korean grammar consistency completeness
        target models used expectedQuality suggestions).recommended_model = some alt →
      (mkQualityMetrics overall confidence korean grammar consistency completeness
        target models used expectedQuality suggestions).needs_reprocessing = true ∧
        alt ≠ used ∧ alt ∈ models ∧ expectedQuality used < expectedQuality alt) ∧
    ((mkQualityMetrics overall confidence korean grammar consistency completeness
        target models used expectedQuality suggestions).needs_reprocessing = false →
      (mkQualityMetrics overall confidence korean grammar consistency completeness
        target models used expectedQuality suggestions).recommended_model = none) := by
  simp only [mkQualityMetrics, analyzeDecision]
  refine ⟨?_, ?_, ?_⟩
  · rw [Bool.and_eq_true, decide_eq_true_iff, Bool.not_eq_true']
    rw [← Bool.not_eq_true, Bool.not_eq_true, ← Bool.not_eq_true']
    constructor
    · rintro ⟨h1, h2⟩
      refine ⟨h1, candidateModels_ne_nil_iff.mp ?_⟩
      intro hnil
      rw [hnil] at h2
      simp at h2
    · rintro ⟨h1, h2⟩
      refine ⟨h1, ?_⟩
      have hne := candidateModels_ne_nil_iff.mpr h2
      cases hc : candidateModels models used expectedQuality with
      | nil => exact absurd hc hne
      | cons a l => simp
  · intro alt halt
    by_cases hb : (decide (overall < target) &&
        !(candidateModels models used expectedQuality).isEmpty) = true
    · rw [if_pos hb] at halt
      have hmem : alt ∈ candidateModels models used expectedQuality := by
        cases hc : candidateModels models used expectedQuality with
        | nil => rw [hc] at halt; simp at halt
        | cons a l =>
            rw [hc] at halt
            simp only [List.head?_cons, Option.some.injEq] at halt
            rw [← halt]
            exact List.mem_cons_self a l
      obtain ⟨h1, h2, h3⟩ := candidateModels_mem hmem
      exact ⟨hb, h2, h1, h3⟩
    · rw [if_neg hb] at halt
      exact absurd halt (by simp)
  · intro hfalse
    rw [if_neg (by simp [hfalse])]

/-- C9: every transition spec reachable through the phase2 UI controls
has its type among the four offered values, its duration within
[0.3, 3.0] and its intensity within [0.1, 1.0]. -/
theorem transitionSpec_bounds (events : List TransitionUIEvent) :
    TransitionUIInv (events.foldl uiStep initialTransitionUI) := by
  refine foldl_uiStep_inv events initialTransitionUI ?_
  refine ⟨?_, ?_, ?_, ?_, ?_⟩ <;>
    simp [initialTransitionUI, transitionTypeOptions, TransitionUIInv] <;> norm_num

/-- C10: `handleFileSelect` issues no request; on a file whose lower-cased
extension is unsupported it only sets the error message, leaving file,
upload result, generate result and status untouched; on a supported file
it stores the file and resets error, upload result, generate result and
status to their initial values. -/
theorem handleFileSelect_spec (s : HomeState) (f : SelectedFile) :
    (handleFileSelect s f).2 = [] ∧
    (if fileExtension f.name ∈ supportedFormats then
        (handleFileSelect s f).1.file = some f ∧
        (handleFileSelect s f).1.error = ("") ∧
        (handleFileSelect s f).1.uploadResult = none ∧
        (handleFileSelect s f).1.generateResult = none ∧
        (handleFileSelect s f).1.status = ProcessStatus.idle
      else
        (handleFileSelect s f).1.error = unsupportedFormatMessage ∧
        (handleFileSelect s f).1.file = s.file ∧
        (handleFileSelect s f).1.uploadResult = s.uploadResult ∧
        (handleFileSelect s f).1.generateResult = s.generateResult ∧
        (handleFileSelect s f).1.status = s.status) := by
  by_cases h : fileExtension f.name ∈ supportedFormats <;>
    simp [handleFileSelect, h]

end AudioToVoice
